import Mathlib

/-!
Shallow embedding of the golang-aws-api repository: the file upload/query
HTTP handlers (main.go), the SQS-triggered processing worker (lambda/main.go),
the data-access helper GetProcessingResultByFileID (database/processing.go),
and the mock auth middleware (auth/mock.go).

The relational tables (files, processing_results) are modelled as lists of
rows in insertion order; the S3 object store as an association list from key
to content; uuid.New() as an oracle of string identifiers indexed by a
counter held in the state.  Go strings are modelled as Lean Strings and
Go's len(string) as the UTF-8 byte size.
-/

/-- Go `unicode.IsSpace`: the Unicode White_Space property
(tab, newline, vertical tab, form feed, carriage return, space,
NEL, NBSP, and the higher whitespace code points). -/
def goIsSpace (c : Char) : Bool :=
  c.val = 0x09 || c.val = 0x0A || c.val = 0x0B || c.val = 0x0C ||
  c.val = 0x0D || c.val = 0x20 || c.val = 0x85 || c.val = 0xA0 ||
  c.val = 0x1680 || (0x2000 ≤ c.val && c.val ≤ 0x200A) ||
  c.val = 0x2028 || c.val = 0x2029 || c.val = 0x202F ||
  c.val = 0x205F || c.val = 0x3000

/-- Split a character list at every character satisfying `p`, keeping empty
fields (semantics of Go `strings.Split` with a one-character separator when
`p` tests for that character).  The result is always non-empty. -/
def splitPredCharList (p : Char → Bool) : List Char → List (List Char)
  | [] => [[]]
  | c :: cs =>
    if p c then [] :: splitPredCharList p cs
    else
      match splitPredCharList p cs with
      | r :: rs => (c :: r) :: rs
      | [] => [[c]]

/-- Go `strings.Split(s, sep)` for a one-character separator `sep`:
all substrings between occurrences of `sep`, empty fields kept. -/
def goSplit (sep : Char) (s : String) : List String :=
  (splitPredCharList (fun c => c = sep) s.data).map (fun cs => ⟨cs⟩)

/-- Go `strings.Fields(s)`: the maximal runs of non-whitespace characters
(split around runs of `unicode.IsSpace`, empty fields dropped). -/
def goFields (s : String) : List String :=
  ((splitPredCharList goIsSpace s.data).filter (fun cs => cs ≠ [])).map
    (fun cs => ⟨cs⟩)

/-- `len(strings.Fields(content))` in the worker: the word count. -/
def countWords (s : String) : Nat := (goFields s).length

/-- Go `len(s)` on a string: the number of UTF-8 bytes. -/
def byteLen (s : String) : Nat := s.utf8ByteSize

/-- The summary string the worker formats:
`fmt.Sprintf("Processed file with %d words and %d characters", words, chars)`. -/
def processedResultText (content : String) : String :=
  "Processed file with " ++ toString (countWords content) ++
    " words and " ++ toString (byteLen content) ++ " characters"

/-- A row of the `files` table: `{id, name, s3_key, created_at}`. -/
structure FileRow where
  id : String
  name : String
  s3Key : String
  createdAt : Nat
deriving Repr, DecidableEq

/-- A row of the `processing_results` table:
`{id, file_id, status, result, created_at}`. -/
structure ProcessingResultRow where
  id : String
  fileId : String
  status : String
  result : String
  createdAt : Nat
deriving Repr, DecidableEq

/-- The observable state shared by the API and the worker: the two database
tables (lists of rows in insertion order), the S3 bucket (key ↦ content),
and the index of the next identifier drawn from the uuid oracle. -/
structure SysState where
  files : List FileRow
  results : List ProcessingResultRow
  objects : List (String × String)
  uuidIx : Nat
deriving Repr, DecidableEq

/-- `INSERT INTO files (id, name, s3_key, created_at)`: fails (primary-key
violation) when a row with the same id already exists, otherwise appends. -/
def insertFileRow (st : SysState) (row : FileRow) : Option SysState :=
  if st.files.any (fun f => f.id = row.id) then none
  else some { st with files := st.files ++ [row] }

/-- `INSERT INTO processing_results (id, file_id, status, result, created_at)`:
fails on a duplicate primary key `id`, and on the foreign-key constraint
`file_id REFERENCES files(id)` when no such file exists; otherwise appends. -/
def insertResultRow (st : SysState) (row : ProcessingResultRow) :
    Option SysState :=
  if st.results.any (fun r => r.id = row.id) then none
  else if st.files.any (fun f => f.id = row.fileId) then
    some { st with results := st.results ++ [row] }
  else none

/-- `s3Client.PutObject`: store `content` under `key`, overwriting. -/
def putObject (st : SysState) (key content : String) : SysState :=
  { st with objects :=
      (key, content) :: st.objects.filter (fun kv => kv.1 ≠ key) }

/-- `s3Client.GetObject` followed by `io.ReadAll`: the content stored under
`key`, or `none` when the object is missing (the fetch fails). -/
def getObject (st : SysState) (key : String) : Option String :=
  (st.objects.find? (fun kv => kv.1 = key)).map (fun kv => kv.2)

/-- `fmt.Sprintf("files/%s/%s", fileData.ID, fileData.Name)`. -/
def s3KeyFor (id name : String) : String :=
  "files/" ++ id ++ "/" ++ name

/-- Responses of `uploadFileHandler` (main.go): 201 Created with the file id,
400 on an undecodable body, 500 "Error saving file metadata", and
500 "Error uploading file". -/
inductive UploadResponse where
  | created (id : String)
  | badRequest
  | errorSavingMetadata
  | errorUploading
deriving Repr, DecidableEq

/-- `uploadFileHandler` (main.go): generate an id when the request carries
none (`genId` is the value `uuid.New().String()` would produce), insert the
File row, then put the content to S3 (`s3PutOk` tells whether that network
call succeeds); on an insert error return 500 without touching S3, on a put
error return 500 leaving the already-inserted row in place. -/
def uploadFileHandler (st : SysState) (reqId name content genId : String)
    (now : Nat) (s3PutOk : Bool) : UploadResponse × SysState :=
  let fid := if reqId = "" then genId else reqId
  let key := s3KeyFor fid name
  match insertFileRow st ⟨fid, name, key, now⟩ with
  | none => (.errorSavingMetadata, st)
  | some st1 =>
    if s3PutOk then (.created fid, putObject st1 key content)
    else (.errorUploading, st1)

/-- Responses of `getFileHandler` (main.go): 200 with
`{id, name, content, created_at}`, 404 "File not found", and
500 "Error retrieving file content" when the S3 fetch fails. -/
inductive GetFileResponse where
  | ok (id name content : String) (createdAt : Nat)
  | notFound
  | errorRetrievingContent
deriving Repr, DecidableEq

/-- `getFileHandler` (main.go): `SELECT ... FROM files WHERE id = $1`
(`find?` on the unique-keyed table), 404 when absent, then fetch the bytes
from S3 at the stored s3_key, 500 when that fails. -/
def getFileHandler (st : SysState) (fileId : String) : GetFileResponse :=
  match st.files.find? (fun f => f.id = fileId) with
  | none => .notFound
  | some f =>
    match getObject st f.s3Key with
    | none => .errorRetrievingContent
    | some content => .ok f.id f.name content f.createdAt

/-- Responses of `getResultHandler` (main.go): 200 with the stored row,
200 `{status:"processing"}` when the file exists but no result does, and
404 "File not found". -/
inductive GetResultResponse where
  | result (id status resultText : String) (createdAt : Nat)
  | processing
  | notFound
deriving Repr, DecidableEq

/-- `getResultHandler` (main.go):
`db.QueryRow("SELECT id, status, result, created_at FROM processing_results
WHERE file_id = $1")` — the query carries no ORDER BY, so QueryRow yields the
table's first matching row (rows modelled in insertion order).  On no rows it
checks `SELECT EXISTS(SELECT 1 FROM files WHERE id = $1)`: 404 when the file
is absent, otherwise `{status:"processing"}`; a found row is encoded as-is. -/
def getResultHandler (st : SysState) (fileId : String) : GetResultResponse :=
  match st.results.find? (fun r => r.fileId = fileId) with
  | some r => .result r.id r.status r.result r.createdAt
  | none =>
    if st.files.any (fun f => f.id = fileId) then .processing
    else .notFound

/-- A row of maximal created_at among `r` and the rows of the list
(the earlier row wins ties, as one order `ORDER BY` may produce). -/
def latestRowAux (r : ProcessingResultRow) :
    List ProcessingResultRow → ProcessingResultRow
  | [] => r
  | x :: xs =>
    if r.createdAt < (latestRowAux x xs).createdAt then latestRowAux x xs
    else r

/-- `ORDER BY created_at DESC LIMIT 1` over a list of rows: the row with the
largest created_at, `none` on an empty list. -/
def latestResult : List ProcessingResultRow → Option ProcessingResultRow
  | [] => none
  | r :: rs => some (latestRowAux r rs)

/-- `GetProcessingResultByFileID` (database/processing.go):
`SELECT ... FROM processing_results WHERE file_id = $1
ORDER BY created_at DESC LIMIT 1`; `sql.ErrNoRows` becomes `none`. -/
def GetProcessingResultByFileID (st : SysState) (fileId : String) :
    Option ProcessingResultRow :=
  latestResult (st.results.filter (fun r => r.fileId = fileId))

/-- One record of the S3 event carried in an SQS message body:
the bucket name and object key. -/
structure S3Record where
  bucket : String
  key : String
deriving Repr, DecidableEq

/-- An SQS message: `none` models a body that fails to parse as an S3 event
(`json.Unmarshal` error, the message is skipped). -/
structure SQSMessage where
  records : Option (List S3Record)
deriving Repr, DecidableEq

/-- The worker's file-id extraction (lambda/main.go):
`parts := strings.Split(objectKey, "/"); if len(parts) < 2 { skip };
fileID := parts[1]`. -/
def extractFileId (key : String) : Option String :=
  match goSplit '/' key with
  | _ :: p1 :: _ => some p1
  | _ => none

/-- Processing of one S3 record inside `HandleSQSEvent` (lambda/main.go):
extract the file id from the key (skip on a malformed key), fetch the object
(skip on failure), count words and characters, and insert a
ProcessingResult row `{uuid, fileID, "completed", summary, now}` — drawing
one fresh identifier from the uuid oracle whether or not the insert then
succeeds; an insert error is logged and the record skipped. -/
def processRecord (uuids : Nat → String) (now : Nat) (st : SysState)
    (rec : S3Record) : SysState :=
  match extractFileId rec.key with
  | none => st
  | some fileID =>
    match getObject st rec.key with
    | none => st
    | some content =>
      let row : ProcessingResultRow :=
        ⟨uuids st.uuidIx, fileID, "completed", processedResultText content,
          now⟩
      let st1 := { st with uuidIx := st.uuidIx + 1 }
      match insertResultRow st1 row with
      | none => st1
      | some st2 => st2

/-- `HandleSQSEvent` (lambda/main.go): for each SQS message, parse the body
(skip on error) and process its S3 records in order; every failure only
skips the record at hand, so the whole batch is always consumed and the
handler returns nil. -/
def HandleSQSEvent (uuids : Nat → String) (now : Nat) (st : SysState)
    (msgs : List SQSMessage) : SysState :=
  msgs.foldl
    (fun s m =>
      match m.records with
      | none => s
      | some recs => recs.foldl (processRecord uuids now) s)
    st

/-- `MockUser` (auth/mock.go). -/
structure MockUser where
  id : String
  username : String
  password : String
  email : String
  confirmed : Bool
  accessToken : String
  createdAt : Nat
deriving Repr, DecidableEq

/-- `MockGetUser` (auth/mock.go): token verification is mocked out — for
every access token it returns a synthetic user `{uuid, "mockuser", token,
confirmed, now}` and never an error (`genId` is the `uuid.New().String()`
value, `now` the `time.Now()` value). -/
def MockGetUser (genId : String) (now : Nat) (accessToken : String) :
    Except String MockUser :=
  .ok ⟨genId, "mockuser", "", "", true, accessToken, now⟩

/-- Outcome of `MockAuthMiddleware` (auth/mock.go): 401 for a missing
header, 401 for a header that is not exactly `Bearer <token>`, 401 when
`MockGetUser` errors, or pass-through to the wrapped handler. -/
inductive AuthDecision where
  | unauthorizedMissing
  | unauthorizedFormat
  | unauthorizedToken
  | pass (token : String)
deriving Repr, DecidableEq

/-- `MockAuthMiddleware` (auth/mock.go): `r.Header.Get("Authorization")`
yields "" when the header is absent → 401; `strings.Split(authHeader, " ")`
must give exactly two parts with the first equal to "Bearer" → otherwise
401; then the token is checked with `MockGetUser` → 401 on error, else the
request proceeds. -/
def MockAuthMiddleware (authHeader genId : String) (now : Nat) :
    AuthDecision :=
  if authHeader = "" then .unauthorizedMissing
  else
    match goSplit ' ' authHeader with
    | [p0, token] =>
      if p0 = "Bearer" then
        match MockGetUser genId now token with
        | .ok _ => .pass token
        | .error _ => .unauthorizedToken
      else .unauthorizedFormat
    | _ => .unauthorizedFormat

/-- A protected endpoint behind the middleware: the wrapped handler runs
(and its downstream store calls happen) exactly when the middleware passes. -/
def runProtected {α : Type} (authHeader genId : String) (now : Nat)
    (handler : String → α) : Option α :=
  match MockAuthMiddleware authHeader genId now with
  | .pass token => some (handler token)
  | _ => none

/-! ### Helper lemmas -/

theorem splitPredCharList_ne_nil (p : Char → Bool) (cs : List Char) :
    splitPredCharList p cs ≠ [] := by
  induction cs with
  | nil => simp [splitPredCharList]
  | cons c cs ih =>
    cases hp : p c <;>
      rcases h : splitPredCharList p cs with _ | ⟨r, rs⟩ <;>
        simp [splitPredCharList, hp, h]

theorem splitPredCharList_append_sep (p : Char → Bool) (s : Char)
    (hs : p s = true) (a b : List Char) (ha : ∀ c ∈ a, p c = false) :
    splitPredCharList p (a ++ s :: b) = a :: splitPredCharList p b := by
  induction a with
  | nil => simp [splitPredCharList, hs]
  | cons c a ih =>
    have hc : p c = false := ha c (by simp)
    have ih2 : splitPredCharList p (a ++ s :: b) =
        a :: splitPredCharList p b :=
      ih (fun x hx => ha x (by simp [hx]))
    simp [splitPredCharList, hc, ih2]

theorem string_mk_data (s : String) : (⟨s.data⟩ : String) = s := by
  cases s
  rfl

theorem goSplit_files_key (id name : String)
    (hid : ∀ c ∈ id.data, c ≠ '/') :
    goSplit '/' ("files/" ++ id ++ "/" ++ name) =
      "files" :: id :: goSplit '/' name := by
  have hdata : ("files/" ++ id ++ "/" ++ name).data =
      ['f', 'i', 'l', 'e', 's'] ++ '/' :: (id.data ++ '/' :: name.data) := by
    simp [String.data_append]
  have h1 : splitPredCharList (fun c => c = '/')
      (['f', 'i', 'l', 'e', 's'] ++ '/' :: (id.data ++ '/' :: name.data)) =
      ['f', 'i', 'l', 'e', 's'] ::
        splitPredCharList (fun c => c = '/') (id.data ++ '/' :: name.data) := by
    refine splitPredCharList_append_sep _ '/' (by simp) _ _ ?_
    intro c hc
    fin_cases hc <;> simp
  have h2 : splitPredCharList (fun c => c = '/') (id.data ++ '/' :: name.data) =
      id.data :: splitPredCharList (fun c => c = '/') name.data := by
    refine splitPredCharList_append_sep _ '/' (by simp) _ _ ?_
    intro c hc
    simpa using hid c hc
  simp only [goSplit, hdata, h1, h2, List.map_cons]

theorem latestRowAux_mem (r : ProcessingResultRow)
    (l : List ProcessingResultRow) : latestRowAux r l ∈ r :: l := by
  induction l generalizing r with
  | nil => simp [latestRowAux]
  | cons x xs ih =>
    simp only [latestRowAux]
    by_cases hlt : r.createdAt < (latestRowAux x xs).createdAt
    · rw [if_pos hlt]
      exact List.mem_cons_of_mem r (ih x)
    · rw [if_neg hlt]
      exact List.mem_cons_self r (x :: xs)

theorem latestRowAux_max (r : ProcessingResultRow)
    (l : List ProcessingResultRow) :
    ∀ x ∈ r :: l, x.createdAt ≤ (latestRowAux r l).createdAt := by
  induction l generalizing r with
  | nil =>
    intro x hx
    simp at hx
    simp [latestRowAux, hx]
  | cons y ys ih =>
    intro x hx
    simp only [latestRowAux]
    by_cases hlt : r.createdAt < (latestRowAux y ys).createdAt
    · rw [if_pos hlt]
      rcases List.mem_cons.mp hx with hx | hx
      · exact hx ▸ Nat.le_of_lt hlt
      · exact ih y x hx
    · rw [if_neg hlt]
      rcases List.mem_cons.mp hx with hx | hx
      · exact hx ▸ Nat.le_refl _
      · exact Nat.le_trans (ih y x hx) (Nat.le_of_not_lt hlt)

theorem latestResult_mem {l : List ProcessingResultRow}
    {r : ProcessingResultRow} (h : latestResult l = some r) : r ∈ l := by
  rcases l with _ | ⟨x, xs⟩
  · simp [latestResult] at h
  · simp only [latestResult, Option.some.injEq] at h
    exact h ▸ latestRowAux_mem x xs

theorem latestResult_max {l : List ProcessingResultRow}
    {r : ProcessingResultRow} (h : latestResult l = some r) :
    ∀ x ∈ l, x.createdAt ≤ r.createdAt := by
  rcases l with _ | ⟨y, ys⟩
  · simp [latestResult] at h
  · simp only [latestResult, Option.some.injEq] at h
    exact fun x hx => h ▸ latestRowAux_max y ys x hx

/-! ### Concrete fixtures for counterexamples and witnesses -/

def c3File : FileRow := ⟨"f1", "a.txt", "files/f1/a.txt", 0⟩

def c3Old : ProcessingResultRow := ⟨"r1", "f1", "completed", "old summary", 1⟩

def c3New : ProcessingResultRow := ⟨"r2", "f1", "completed", "new summary", 2⟩

def c3State : SysState := ⟨[c3File], [c3Old, c3New], [], 0⟩

/-! ### Claims -/

/-- C3, counterexample: with two ProcessingResult rows for file "f1" (row
"r1" at created_at 1 inserted before row "r2" at created_at 2), the
data-access helper returns the most recent row "r2", but GET /files/f1/result
— whose query has no ORDER BY — returns the first-stored row "r1", not the
row with the most recent created_at. -/
theorem c3_handler_not_latest :
    GetProcessingResultByFileID c3State "f1" = some c3New ∧
    getResultHandler c3State "f1" =
      GetResultResponse.result "r1" "completed" "old summary" 1 := by
  constructor
  · rfl
  · rfl

/-- C3, amended: `GetProcessingResultByFileID` does return the row with the
most recent created_at among a file's rows, but the GET /files/{id}/result
handler does not call it — its query has no ORDER BY and yields the table's
first matching row, which need not be the most recent. -/
theorem getProcessingResultByFileID_latest (st : SysState) (fid : String)
    (r : ProcessingResultRow)
    (h : GetProcessingResultByFileID st fid = some r) :
    r ∈ st.results ∧ r.fileId = fid ∧
      ∀ x ∈ st.results, x.fileId = fid → x.createdAt ≤ r.createdAt := by
  unfold GetProcessingResultByFileID at h
  have hmem := latestResult_mem h
  have hmax := latestResult_max h
  have hmem2 := List.mem_filter.mp hmem
  refine ⟨hmem2.1, by simpa using hmem2.2, ?_⟩
  intro x hx hfid
  exact hmax x (List.mem_filter.mpr ⟨hx, by simp [hfid]⟩)

/-- Witness for the amended C3 at the two-row fixture. -/
theorem getProcessingResultByFileID_latest_witness :
    c3New ∈ c3State.results ∧ c3New.fileId = "f1" ∧
      ∀ x ∈ c3State.results, x.fileId = "f1" →
        x.createdAt ≤ c3New.createdAt :=
  getProcessingResultByFileID_latest c3State "f1" c3New (by rfl)

/-- C4, counterexample: `MockGetUser` succeeds for every access token — an
arbitrary token no user ever held resolves to a synthetic user, and the
middleware passes the request through instead of rejecting it with
Unauthorized. -/
theorem c4_any_token_accepted :
    MockGetUser "u-1" 7 "unresolvable-token" =
      Except.ok ⟨"u-1", "mockuser", "", "", true, "unresolvable-token", 7⟩ ∧
    MockAuthMiddleware "Bearer unresolvable-token" "u-1" 7 =
      AuthDecision.pass "unresolvable-token" := by
  constructor
  · rfl
  · rfl

/-- C4, amended: `MockGetUser` returns a synthetic user for every token and
never fails, so the middleware never answers Unauthorized on token grounds:
every well-formed `Bearer <token>` header passes the gate. -/
theorem mockGetUser_never_fails (genId header token : String) (now : Nat) :
    MockGetUser genId now token =
      Except.ok ⟨genId, "mockuser", "", "", true, token, now⟩ ∧
    MockAuthMiddleware header genId now ≠ AuthDecision.unauthorizedToken := by
  refine ⟨rfl, ?_⟩
  unfold MockAuthMiddleware
  by_cases h : header = ""
  · simp [h]
  · rw [if_neg h]
    cases hsp : goSplit ' ' header with
    | nil => simp
    | cons p0 rest =>
      cases rest with
      | nil => simp
      | cons t rest2 =>
        cases rest2 with
        | nil =>
          by_cases hb : p0 = "Bearer"
          · simp [hb, MockGetUser]
          · simp [hb]
        | cons x rest3 => simp

/-- C5: GET /files/{id}/result is a three-way case split — no result row and
no file gives NotFound; no result row but an existing file gives
{status:"processing"}; an existing result row is returned with its status
and result text unmodified. -/
theorem getResultHandler_three_way (st : SysState) (fid : String) :
    ((∀ r ∈ st.results, r.fileId ≠ fid) →
      (∀ f ∈ st.files, f.id ≠ fid) →
        getResultHandler st fid = GetResultResponse.notFound) ∧
    ((∀ r ∈ st.results, r.fileId ≠ fid) →
      (∃ f ∈ st.files, f.id = fid) →
        getResultHandler st fid = GetResultResponse.processing) ∧
    ((∃ r ∈ st.results, r.fileId = fid) →
      ∃ r ∈ st.results, r.fileId = fid ∧
        getResultHandler st fid =
          GetResultResponse.result r.id r.status r.result r.createdAt) := by
  refine ⟨?_, ?_, ?_⟩
  · intro hres hfile
    have h1 : st.results.find? (fun r => r.fileId = fid) = none :=
      List.find?_eq_none.mpr (fun x hx => by simpa using hres x hx)
    have h2 : st.files.any (fun f => f.id = fid) = false := by
      rw [← Bool.not_eq_true, List.any_eq_true]
      push_neg
      intro f hf
      simpa using hfile f hf
    simp [getResultHandler, h1, h2]
  · intro hres hfile
    have h1 : st.results.find? (fun r => r.fileId = fid) = none :=
      List.find?_eq_none.mpr (fun x hx => by simpa using hres x hx)
    have h2 : st.files.any (fun f => f.id = fid) = true := by
      rw [List.any_eq_true]
      obtain ⟨f, hf, hfd⟩ := hfile
      exact ⟨f, hf, by simpa using hfd⟩
    simp [getResultHandler, h1, h2]
  · intro hres
    have h1 : (st.results.find? (fun r => r.fileId = fid)).isSome := by
      rw [List.find?_isSome]
      obtain ⟨r, hr, hfd⟩ := hres
      exact ⟨r, hr, by simpa using hfd⟩
    obtain ⟨r, hr⟩ := Option.isSome_iff_exists.mp h1
    refine ⟨r, List.mem_of_find?_eq_some hr,
      by simpa using List.find?_some hr, ?_⟩
    simp [getResultHandler, hr]

/-- Witness for C5 at an empty store: an unknown id gives NotFound. -/
theorem getResultHandler_three_way_witness :
    getResultHandler ⟨[], [], [], 0⟩ "f1" = GetResultResponse.notFound :=
  (getResultHandler_three_way ⟨[], [], [], 0⟩ "f1").1 (by simp) (by simp)

/-- C9: a protected endpoint called with no Authorization header, or with a
header that does not split on single spaces into exactly
["Bearer", token], is answered Unauthorized and the wrapped handler (hence
any downstream store call) is never invoked. -/
theorem middleware_blocks_malformed {α : Type} (authHeader genId : String)
    (now : Nat) (handler : String → α)
    (h : authHeader = "" ∨ ∀ t, goSplit ' ' authHeader ≠ ["Bearer", t]) :
    runProtected authHeader genId now handler = none := by
  unfold runProtected MockAuthMiddleware
  rcases h with h | h
  · simp [h]
  · by_cases he : authHeader = ""
    · simp [he]
    · rw [if_neg he]
      cases hsp : goSplit ' ' authHeader with
      | nil => simp
      | cons p0 rest =>
        cases rest with
        | nil => simp
        | cons t rest2 =>
          cases rest2 with
          | nil =>
            have hb : p0 ≠ "Bearer" := fun hb => h t (by rw [hsp, hb])
            simp [hb]
          | cons x rest3 => simp

/-- Witness for C9: a request with no Authorization header never reaches
the handler. -/
theorem middleware_blocks_malformed_witness :
    runProtected "" "g" 0 (fun _ => (0 : Nat)) = none :=
  middleware_blocks_malformed "" "g" 0 (fun _ => (0 : Nat)) (Or.inl rfl)

/-- C1: uploading a file with a non-empty name and content (under a fresh
id, with the object write succeeding) and then immediately fetching it by
id returns content byte-identical to what was submitted. -/
theorem upload_then_get_round_trip (st : SysState)
    (id name content genId : String) (now : Nat)
    (hname : name ≠ "") (hcontent : content ≠ "") (hid : id ≠ "")
    (hfresh : ∀ f ∈ st.files, f.id ≠ id) :
    (uploadFileHandler st id name content genId now true).1 =
      UploadResponse.created id ∧
    getFileHandler (uploadFileHandler st id name content genId now true).2
      id = GetFileResponse.ok id name content now := by
  have hany : st.files.any (fun f => f.id = id) = false := by
    rw [← Bool.not_eq_true, List.any_eq_true]
    push_neg
    intro f hf
    simpa using hfresh f hf
  have hrow : insertFileRow st ⟨id, name, s3KeyFor id name, now⟩ =
      some { st with
        files := st.files ++ [⟨id, name, s3KeyFor id name, now⟩] } := by
    simp [insertFileRow, hany]
  have hfindnone : st.files.find? (fun f => f.id = id) = none :=
    List.find?_eq_none.mpr (fun x hx => by simpa using hfresh x hx)
  have hfind : ((st.files ++ [⟨id, name, s3KeyFor id name, now⟩] :
      List FileRow).find? (fun f => f.id = id)) =
      some ⟨id, name, s3KeyFor id name, now⟩ := by
    rw [List.find?_append, hfindnone]
    simp
  constructor
  · simp [uploadFileHandler, hid, hrow]
  · simp [uploadFileHandler, hid, hrow, getFileHandler, putObject,
      getObject, hfind]

/-- Witness for C1 at an empty store. -/
theorem upload_then_get_round_trip_witness :
    (uploadFileHandler ⟨[], [], [], 0⟩ "f1" "a.txt" "hello" "g" 3 true).1 =
      UploadResponse.created "f1" ∧
    getFileHandler
      (uploadFileHandler ⟨[], [], [], 0⟩ "f1" "a.txt" "hello" "g" 3 true).2
      "f1" = GetFileResponse.ok "f1" "a.txt" "hello" 3 :=
  upload_then_get_round_trip ⟨[], [], [], 0⟩ "f1" "a.txt" "hello" "g" 3
    (by decide) (by decide) (by decide) (by simp)

/-- C7: the upload handler writes the File metadata row before the object
bytes; when the metadata insert succeeds and the object write then fails,
the handler answers an internal error, the inserted File row stays in the
table, and the object store is untouched (an orphaned row). -/
theorem upload_put_failure_orphans_metadata (st : SysState)
    (id name content genId : String) (now : Nat)
    (hfresh : ∀ f ∈ st.files, f.id ≠ (if id = "" then genId else id)) :
    (uploadFileHandler st id name content genId now false).1 =
      UploadResponse.errorUploading ∧
    (uploadFileHandler st id name content genId now false).2.files =
      st.files ++ [⟨(if id = "" then genId else id), name,
        s3KeyFor (if id = "" then genId else id) name, now⟩] ∧
    (uploadFileHandler st id name content genId now false).2.objects =
      st.objects := by
  have hany : st.files.any
      (fun f => f.id = (if id = "" then genId else id)) = false := by
    rw [← Bool.not_eq_true, List.any_eq_true]
    push_neg
    intro f hf
    simpa using hfresh f hf
  have hrow : insertFileRow st ⟨(if id = "" then genId else id), name,
      s3KeyFor (if id = "" then genId else id) name, now⟩ =
      some { st with files := st.files ++
        [⟨(if id = "" then genId else id), name,
          s3KeyFor (if id = "" then genId else id) name, now⟩] } := by
    simp [insertFileRow, hany]
  refine ⟨?_, ?_, ?_⟩ <;> simp [uploadFileHandler, hrow]

/-- Witness for C7: upload of "f1" with the S3 write failing leaves the
File row and returns the upload error. -/
theorem upload_put_failure_orphans_metadata_witness :
    (uploadFileHandler ⟨[], [], [], 0⟩ "f1" "a.txt" "hello" "g" 3 false).1 =
      UploadResponse.errorUploading ∧
    (uploadFileHandler ⟨[], [], [], 0⟩ "f1" "a.txt" "hello" "g" 3 false).2.files =
      [] ++ [⟨(if "f1" = "" then "g" else "f1"), "a.txt",
        s3KeyFor (if "f1" = "" then "g" else "f1") "a.txt", 3⟩] ∧
    (uploadFileHandler ⟨[], [], [], 0⟩ "f1" "a.txt" "hello" "g" 3 false).2.objects =
      [] :=
  upload_put_failure_orphans_metadata ⟨[], [], [], 0⟩ "f1" "a.txt" "hello"
    "g" 3 (by simp)

/-- C10 (implicit): an upload carrying an id that is already a stored File
fails at the metadata insert with an internal error; no object write is
attempted and the state — existing File row and existing object bytes —
is left entirely unchanged, whether or not S3 would have accepted the
write. -/
theorem upload_duplicate_id_no_overwrite (st : SysState)
    (id name content genId : String) (now : Nat) (s3PutOk : Bool)
    (hid : id ≠ "") (hdup : ∃ f ∈ st.files, f.id = id) :
    (uploadFileHandler st id name content genId now s3PutOk).1 =
      UploadResponse.errorSavingMetadata ∧
    (uploadFileHandler st id name content genId now s3PutOk).2 = st := by
  have hany : st.files.any (fun f => f.id = id) = true := by
    rw [List.any_eq_true]
    obtain ⟨f, hf, h⟩ := hdup
    exact ⟨f, hf, by simpa using h⟩
  have hrow : insertFileRow st ⟨id, name, s3KeyFor id name, now⟩ = none := by
    simp [insertFileRow, hany]
  constructor <;> simp [uploadFileHandler, hid, hrow]

/-- Witness for C10: re-uploading id "f1" over the fixture store changes
nothing. -/
theorem upload_duplicate_id_no_overwrite_witness :
    (uploadFileHandler c3State "f1" "b.txt" "other" "g" 9 true).1 =
      UploadResponse.errorSavingMetadata ∧
    (uploadFileHandler c3State "f1" "b.txt" "other" "g" 9 true).2 =
      c3State :=
  upload_duplicate_id_no_overwrite c3State "f1" "b.txt" "other" "g" 9 true
    (by decide) ⟨c3File, by simp [c3State], rfl⟩

/-- Successful path of one record in the worker: well-formed key, object
fetch succeeds, the referenced file exists (foreign key) and the drawn
uuid is unused (primary key) — a completed result row is appended. -/
theorem processRecord_success (uuids : Nat → String) (now : Nat)
    (st : SysState) (rec : S3Record) (fid content : String)
    (hkey : extractFileId rec.key = some fid)
    (hfetch : getObject st rec.key = some content)
    (hfk : ∃ f ∈ st.files, f.id = fid)
    (hpk : ∀ r ∈ st.results, r.id ≠ uuids st.uuidIx) :
    processRecord uuids now st rec =
      { st with
        results := st.results ++
          [⟨uuids st.uuidIx, fid, "completed", processedResultText content,
            now⟩],
        uuidIx := st.uuidIx + 1 } := by
  have hanyR : st.results.any (fun r => r.id = uuids st.uuidIx) = false := by
    rw [← Bool.not_eq_true, List.any_eq_true]
    push_neg
    intro r hr
    simpa using hpk r hr
  have hanyF : st.files.any (fun f => f.id = fid) = true := by
    rw [List.any_eq_true]
    obtain ⟨f, hf, h⟩ := hfk
    exact ⟨f, hf, by simpa using h⟩
  simp [processRecord, hkey, hfetch, insertResultRow, hanyR, hanyF]

def c2File : FileRow := ⟨"f1", "hello.txt", "files/f1/hello.txt", 0⟩

def c2State : SysState :=
  ⟨[c2File], [], [("files/f1/hello.txt", "Hello, World!")], 0⟩

def c2Rec : S3Record := ⟨"my-test-bucket", "files/f1/hello.txt"⟩

/-- C2: for a notification whose key is well-formed and whose object fetch
succeeds (with the referenced File present and the drawn uuid fresh), the
worker inserts a ProcessingResult row with status "completed" and result
text "Processed file with {words} words and {chars} characters", where
words counts whitespace-separated fields and chars the byte length of the
content; for "Hello, World!" the counts are 2 words and 13 characters. -/
theorem worker_counts_and_inserts_completed (uuids : Nat → String)
    (now : Nat) (st : SysState) (rec : S3Record) (fid content : String)
    (hkey : extractFileId rec.key = some fid)
    (hfetch : getObject st rec.key = some content)
    (hfk : ∃ f ∈ st.files, f.id = fid)
    (hpk : ∀ r ∈ st.results, r.id ≠ uuids st.uuidIx) :
    processRecord uuids now st rec =
      { st with
        results := st.results ++
          [⟨uuids st.uuidIx, fid, "completed",
            "Processed file with " ++ toString (countWords content) ++
              " words and " ++ toString (byteLen content) ++ " characters",
            now⟩],
        uuidIx := st.uuidIx + 1 } ∧
    countWords "Hello, World!" = 2 ∧ byteLen "Hello, World!" = 13 := by
  refine ⟨processRecord_success uuids now st rec fid content hkey hfetch
    hfk hpk, ?_, ?_⟩
  · decide
  · rfl

/-- Witness for C2 at the "Hello, World!" fixture. -/
theorem worker_counts_and_inserts_completed_witness :
    countWords "Hello, World!" = 2 ∧ byteLen "Hello, World!" = 13 :=
  (worker_counts_and_inserts_completed (fun n => Nat.repr n) 5 c2State
    c2Rec "f1" "Hello, World!" rfl rfl ⟨c2File, by simp [c2State], rfl⟩
    (by simp [c2State])).2

/-- C6: the worker takes the segment at index 1 of the key split on "/" as
the file id; a key with fewer than 2 segments is skipped — the state, and
in particular the processing_results table, is unchanged — and a key
"files/{id}/{name}" (with "/"-free id) yields exactly id. -/
theorem worker_extracts_second_segment (uuids : Nat → String) (now : Nat)
    (st : SysState) (rec : S3Record) (id name : String)
    (hid : ∀ c ∈ id.data, c ≠ '/') :
    ((goSplit '/' rec.key).length < 2 →
      processRecord uuids now st rec = st) ∧
    (rec.key = "files/" ++ id ++ "/" ++ name →
      extractFileId rec.key = some id) := by
  constructor
  · intro hlen
    unfold processRecord extractFileId
    cases hsp : goSplit '/' rec.key with
    | nil => simp
    | cons p0 rest =>
      cases rest with
      | nil => simp
      | cons p1 rest2 =>
        rw [hsp] at hlen
        simp at hlen
        omega
  · intro hkey
    unfold extractFileId
    rw [hkey, goSplit_files_key id name hid]

/-- Witness for C6: the key "files/f1/a.txt" yields file id "f1". -/
theorem worker_extracts_second_segment_witness :
    extractFileId "files/f1/a.txt" = some "f1" :=
  (worker_extracts_second_segment (fun n => Nat.repr n) 0 ⟨[], [], [], 0⟩
    ⟨"b", "files/f1/a.txt"⟩ "f1" "a.txt" (by decide)).2 rfl

/-- C8: a notification delivered twice (same key, object still fetchable,
uuid draws fresh and distinct) does not fail the worker: it appends a
second completed row with a fresh id for the same file_id, and the whole
batch is consumed. -/
theorem worker_redelivery_inserts_second_row (uuids : Nat → String)
    (now : Nat) (st : SysState) (rec : S3Record) (fid content : String)
    (hkey : extractFileId rec.key = some fid)
    (hfetch : getObject st rec.key = some content)
    (hfk : ∃ f ∈ st.files, f.id = fid)
    (hpk1 : ∀ r ∈ st.results, r.id ≠ uuids st.uuidIx)
    (hpk2 : ∀ r ∈ st.results, r.id ≠ uuids (st.uuidIx + 1))
    (hne : uuids st.uuidIx ≠ uuids (st.uuidIx + 1)) :
    ∃ r1 r2 : ProcessingResultRow,
      HandleSQSEvent uuids now st [⟨some [rec]⟩, ⟨some [rec]⟩] =
        { st with results := st.results ++ [r1, r2],
                  uuidIx := st.uuidIx + 2 } ∧
      r1.fileId = fid ∧ r2.fileId = fid ∧
      r1.status = "completed" ∧ r2.status = "completed" ∧
      r1.id ≠ r2.id := by
  have h1 := processRecord_success uuids now st rec fid content hkey
    hfetch hfk hpk1
  have hpk1x : ∀ r ∈ ({ st with
      results := st.results ++
        [⟨uuids st.uuidIx, fid, "completed", processedResultText content,
          now⟩],
      uuidIx := st.uuidIx + 1 } : SysState).results,
      r.id ≠ uuids (st.uuidIx + 1) := by
    intro r hr
    rcases List.mem_append.mp hr with h | h
    · exact hpk2 r h
    · simp at h
      subst h
      exact hne
  have h2 := processRecord_success uuids now
    { st with
      results := st.results ++
        [⟨uuids st.uuidIx, fid, "completed", processedResultText content,
          now⟩],
      uuidIx := st.uuidIx + 1 } rec fid content hkey hfetch hfk hpk1x
  refine ⟨⟨uuids st.uuidIx, fid, "completed", processedResultText content,
      now⟩,
    ⟨uuids (st.uuidIx + 1), fid, "completed", processedResultText content,
      now⟩, ?_, rfl, rfl, rfl, rfl, hne⟩
  simp only [HandleSQSEvent, List.foldl_cons, List.foldl_nil]
  rw [h1, h2]
  simp [List.append_assoc]

/-- Witness for C8: the "Hello, World!" notification delivered twice yields
two completed rows with distinct ids and the batch completes. -/
theorem worker_redelivery_inserts_second_row_witness :
    ∃ r1 r2 : ProcessingResultRow,
      HandleSQSEvent (fun n => Nat.repr n) 5 c2State
        [⟨some [c2Rec]⟩, ⟨some [c2Rec]⟩] =
        { c2State with results := c2State.results ++ [r1, r2],
                       uuidIx := c2State.uuidIx + 2 } ∧
      r1.fileId = "f1" ∧ r2.fileId = "f1" ∧
      r1.status = "completed" ∧ r2.status = "completed" ∧ r1.id ≠ r2.id :=
  worker_redelivery_inserts_second_row (fun n => Nat.repr n) 5 c2State
    c2Rec "f1" "Hello, World!" rfl rfl ⟨c2File, by simp [c2State], rfl⟩
    (by simp [c2State]) (by simp [c2State]) (by decide)
